import Mathlib

/-!
Verification of the lattice-point core of a 2-D grid utility library.

The source component is the Rust type `Coordinate` (an ordered pair of
unsigned integers) in `advent_of_code_util/src/lib.rs`, with operations:
`from_str` (parsing "x,y"), `get_points_between_vertices` (axis-aligned
segment enumeration), `is_within_bounds`, and the two neighbor
enumerations `get_surrounding_non_diagonal_coordinates` (4-connected)
and `get_surrounding_coordinates` (8-connected).

Embedding notes:
* `usize` is modelled by `Nat`; the guarded subtractions `x - 1`,
  `max_width - 1` appear as `Nat` subtraction in the plain definitions
  and, to reason about underflow, as checked subtraction (`Option`) in
  the `...Checked` variants.
* Rust panics (`assert!`, `unwrap`) are modelled by `Option`: `none`
  is a fatal failure.
* Rust `Vec::push` sequences become list concatenations in push order.
-/

structure Coordinate where
  x : Nat
  y : Nat
deriving DecidableEq, Repr

namespace Coordinate

/-- Embedding of `Coordinate::is_within_bounds`:
`self.x >= min_x && self.x <= max_x && self.y >= min_y && self.y <= max_y`. -/
def is_within_bounds (self : Coordinate) (min_x max_x min_y max_y : Nat) : Bool :=
  decide (self.x ≥ min_x) && decide (self.x ≤ max_x) &&
    decide (self.y ≥ min_y) && decide (self.y ≤ max_y)

/-- Embedding of Rust `(a..=b)` for `a ≤ b`: the ascending list
`[a, a+1, ..., b]`, i.e. `b - a + 1` values starting at `a`. -/
def rangeIncl (a b : Nat) : List Nat :=
  (List.range (b - a + 1)).map (fun i => a + i)

/-- Embedding of `Coordinate::get_points_between_vertices`.
The Rust function first asserts `self.x == to.x || self.y == to.y`
(`none` models the assertion failure), then walks the inclusive range
of the varying coordinate ascending, choosing the branch by comparing
the endpoints exactly as the source does. -/
def get_points_between_vertices (self dst : Coordinate) : Option (List Coordinate) :=
  if self.x = dst.x ∨ self.y = dst.y then
    some (if self.x = dst.x then
      if self.y < dst.y then
        (rangeIncl self.y dst.y).map (fun y => ⟨self.x, y⟩)
      else
        (rangeIncl dst.y self.y).map (fun y => ⟨self.x, y⟩)
    else
      if self.x < dst.x then
        (rangeIncl self.x dst.x).map (fun x => ⟨x, self.y⟩)
      else
        (rangeIncl dst.x self.x).map (fun x => ⟨x, self.y⟩))
  else
    none

/-- Embedding of `Coordinate::get_surrounding_non_diagonal_coordinates`:
four conditional pushes, in order west, north, east, south. -/
def get_surrounding_non_diagonal_coordinates
    (self : Coordinate) (max_width max_height : Nat) : List Coordinate :=
  (if self.x > 0 then [⟨self.x - 1, self.y⟩] else []) ++
  (if self.y > 0 then [⟨self.x, self.y - 1⟩] else []) ++
  (if self.x < max_width - 1 then [⟨self.x + 1, self.y⟩] else []) ++
  (if self.y < max_height - 1 then [⟨self.x, self.y + 1⟩] else [])

/-- Embedding of `Coordinate::get_surrounding_coordinates`: four
conditional blocks, each pushing an orthogonal neighbor and then,
nested inside it, conditionally the following diagonal neighbor. -/
def get_surrounding_coordinates
    (self : Coordinate) (max_width max_height : Nat) : List Coordinate :=
  (if self.x > 0 then
    ⟨self.x - 1, self.y⟩ ::
      (if self.y > 0 then [⟨self.x - 1, self.y - 1⟩] else [])
  else []) ++
  (if self.y > 0 then
    ⟨self.x, self.y - 1⟩ ::
      (if self.x < max_width - 1 then [⟨self.x + 1, self.y - 1⟩] else [])
  else []) ++
  (if self.x < max_width - 1 then
    ⟨self.x + 1, self.y⟩ ::
      (if self.y < max_height - 1 then [⟨self.x + 1, self.y + 1⟩] else [])
  else []) ++
  (if self.y < max_height - 1 then
    ⟨self.x, self.y + 1⟩ ::
      (if self.x > 0 then [⟨self.x - 1, self.y + 1⟩] else [])
  else [])

/-- Checked subtraction: `a - b` when it does not underflow, `none`
otherwise.  Models the panic of unsigned subtraction underflow. -/
def csub (a b : Nat) : Option Nat :=
  if b ≤ a then some (a - b) else none

/-- Variant of `get_surrounding_non_diagonal_coordinates` in which every
subtraction of the source (`self.x - 1`, `self.y - 1`, `max_width - 1`,
`max_height - 1`) is checked: `none` means some reachable subtraction
would underflow.  The ordering and conditions mirror the source; the
`max_width - 1` / `max_height - 1` subtractions sit inside condition
evaluations that the source always reaches, so they are evaluated
unconditionally here. -/
def get_surrounding_non_diagonal_coordinates_checked
    (self : Coordinate) (max_width max_height : Nat) : Option (List Coordinate) := do
  let l1 ← if self.x > 0 then do
      let xm ← csub self.x 1
      pure [(⟨xm, self.y⟩ : Coordinate)]
    else pure []
  let l2 ← if self.y > 0 then do
      let ym ← csub self.y 1
      pure [(⟨self.x, ym⟩ : Coordinate)]
    else pure []
  let wm ← csub max_width 1
  let l3 := if self.x < wm then [(⟨self.x + 1, self.y⟩ : Coordinate)] else []
  let hm ← csub max_height 1
  let l4 := if self.y < hm then [(⟨self.x, self.y + 1⟩ : Coordinate)] else []
  pure (l1 ++ l2 ++ l3 ++ l4)

/-- Variant of `get_surrounding_coordinates` with every subtraction of
the source checked, `none` meaning a reachable underflow; block and
condition order mirror the source exactly (the nested diagonal
conditions are only evaluated inside their enclosing block). -/
def get_surrounding_coordinates_checked
    (self : Coordinate) (max_width max_height : Nat) : Option (List Coordinate) := do
  let l1 ← if self.x > 0 then do
      let xm ← csub self.x 1
      let d ← if self.y > 0 then do
          let ym ← csub self.y 1
          pure [(⟨xm, ym⟩ : Coordinate)]
        else pure []
      pure ((⟨xm, self.y⟩ : Coordinate) :: d)
    else pure []
  let l2 ← if self.y > 0 then do
      let ym ← csub self.y 1
      let wm ← csub max_width 1
      let d := if self.x < wm then [(⟨self.x + 1, ym⟩ : Coordinate)] else []
      pure ((⟨self.x, ym⟩ : Coordinate) :: d)
    else pure []
  let wm ← csub max_width 1
  let l3 ← if self.x < wm then do
      let hm ← csub max_height 1
      let d := if self.y < hm then [(⟨self.x + 1, self.y + 1⟩ : Coordinate)] else []
      pure ((⟨self.x + 1, self.y⟩ : Coordinate) :: d)
    else pure []
  let hm ← csub max_height 1
  let l4 ← if self.y < hm then do
      let d ← if self.x > 0 then do
          let xm ← csub self.x 1
          pure [(⟨xm, self.y + 1⟩ : Coordinate)]
        else pure []
      pure ((⟨self.x, self.y + 1⟩ : Coordinate) :: d)
    else pure []
  pure (l1 ++ l2 ++ l3 ++ l4)

end Coordinate

/-! ## Spec-side descriptions of the neighbor enumerations

To compare the implementation against the specification's wording
("a neighbor in a given direction is emitted only if it stays within
`[0, maxWidth-1] x [0, maxHeight-1]`"), neighbor cells are rendered as
pairs of *signed* integers, so that "west of `(0, y)` is out of bounds"
is a genuine bounds violation rather than an artifact of truncated
`Nat` subtraction. -/

/-- The signed-coordinate view of a lattice point. -/
def Coordinate.toZ (c : Coordinate) : Int × Int := ((c.x : Int), (c.y : Int))

/-- `inBoundsZ W H c`: the signed cell `c` lies within
`[0, W-1] x [0, H-1]`. -/
def inBoundsZ (W H : Nat) (c : Int × Int) : Prop :=
  0 ≤ c.1 ∧ c.1 ≤ (W : Int) - 1 ∧ 0 ≤ c.2 ∧ c.2 ≤ (H : Int) - 1

instance (W H : Nat) (c : Int × Int) : Decidable (inBoundsZ W H c) := by
  unfold inBoundsZ; infer_instance

/-- Spec-side description of the 4-connected enumeration, following the
spec's words: of the four orthogonal neighbor cells, in the order west,
north, east, south, keep exactly those within
`[0, maxWidth-1] x [0, maxHeight-1]`. -/
def orthogonal_neighbors_spec (p : Coordinate) (W H : Nat) : List (Int × Int) :=
  [((p.x : Int) - 1, (p.y : Int)), ((p.x : Int), (p.y : Int) - 1),
   ((p.x : Int) + 1, (p.y : Int)), ((p.x : Int), (p.y : Int) + 1)].filter
    (fun c => decide (inBoundsZ W H c))

/-- Spec-side description of the 8-connected enumeration, following the
spec's words: a clockwise sweep west, northwest, north, northeast, east,
southeast, south, southwest, where each orthogonal cell is emitted iff
it is in bounds and each diagonal is emitted iff both of its adjacent
orthogonal cells are in bounds. -/
def all_neighbors_spec (p : Coordinate) (W H : Nat) : List (Int × Int) :=
  (if inBoundsZ W H ((p.x : Int) - 1, (p.y : Int)) then
    [((p.x : Int) - 1, (p.y : Int))] else []) ++
  (if inBoundsZ W H ((p.x : Int) - 1, (p.y : Int)) ∧
      inBoundsZ W H ((p.x : Int), (p.y : Int) - 1) then
    [((p.x : Int) - 1, (p.y : Int) - 1)] else []) ++
  (if inBoundsZ W H ((p.x : Int), (p.y : Int) - 1) then
    [((p.x : Int), (p.y : Int) - 1)] else []) ++
  (if inBoundsZ W H ((p.x : Int), (p.y : Int) - 1) ∧
      inBoundsZ W H ((p.x : Int) + 1, (p.y : Int)) then
    [((p.x : Int) + 1, (p.y : Int) - 1)] else []) ++
  (if inBoundsZ W H ((p.x : Int) + 1, (p.y : Int)) then
    [((p.x : Int) + 1, (p.y : Int))] else []) ++
  (if inBoundsZ W H ((p.x : Int) + 1, (p.y : Int)) ∧
      inBoundsZ W H ((p.x : Int), (p.y : Int) + 1) then
    [((p.x : Int) + 1, (p.y : Int) + 1)] else []) ++
  (if inBoundsZ W H ((p.x : Int), (p.y : Int) + 1) then
    [((p.x : Int), (p.y : Int) + 1)] else []) ++
  (if inBoundsZ W H ((p.x : Int), (p.y : Int) + 1) ∧
      inBoundsZ W H ((p.x : Int) - 1, (p.y : Int)) then
    [((p.x : Int) - 1, (p.y : Int) + 1)] else [])

/-! ## Parsing model for `Coordinate::from_str`

Strings are modelled as `List Char`.  `splitOnComma` models Rust's
`str::split(',')` (splitting at every comma, keeping empty tokens, and
yielding one token for the empty string); `parseUsize` models
`str::parse::<usize>` on an unbounded integer domain (an optional
leading `+`, then one or more decimal digits, no whitespace or other
characters tolerated), with `none` modelling the parse-error panic. -/

/-- Model of Rust `str::split(',')` on `List Char`. -/
def splitOnComma : List Char → List (List Char)
  | [] => [[]]
  | c :: rest =>
    if c = ',' then
      [] :: splitOnComma rest
    else
      match splitOnComma rest with
      | [] => [[c]]
      | t :: ts => (c :: t) :: ts

/-- Model of Rust `str::parse::<usize>`: strip one optional leading
`+`, then require a nonempty run of decimal digits and fold them into
the value. -/
def parseUsize (s : List Char) : Option Nat :=
  let t := if s.head? = some '+' then s.tail else s
  if t.isEmpty then none
  else if t.all Char.isDigit then
    some (t.foldl (fun acc c => acc * 10 + (c.toNat - Char.toNat '0')) 0)
  else none

/-- Model of `collect_tuple::<(usize, usize)>` over the parsed tokens:
succeeds only on exactly two tokens, both of which parse. -/
def Coordinate.collect_pair : List (List Char) → Option Coordinate
  | [t1, t2] =>
    match parseUsize t1, parseUsize t2 with
    | some x, some y => some ⟨x, y⟩
    | _, _ => none
  | _ => none

/-- Embedding of `Coordinate::from_str`: split on commas, require
exactly two tokens, parse each as an unsigned integer; `none` models
the `unwrap` panics on any malformed input. -/
def Coordinate.from_str (s : List Char) : Option Coordinate :=
  Coordinate.collect_pair (splitOnComma s)

/-- The decimal digit character for `d < 10` (helper for the canonical
decimal rendering of a number). -/
def digitChar : Nat → Char
  | 0 => '0' | 1 => '1' | 2 => '2' | 3 => '3' | 4 => '4'
  | 5 => '5' | 6 => '6' | 7 => '7' | 8 => '8' | _ => '9'

/-- Little-endian digit list of `n` (empty for `0`). -/
def natToRevDigits (n : Nat) : List Char :=
  match n with
  | 0 => []
  | m + 1 => digitChar ((m + 1) % 10) :: natToRevDigits ((m + 1) / 10)
decreasing_by exact Nat.div_lt_self (Nat.succ_pos m) (by omega)

/-- The canonical decimal rendering of `n`, modelling Rust's
`format!` / `Display` output for an unsigned integer. -/
def natToChars (n : Nat) : List Char :=
  if n = 0 then ['0'] else (natToRevDigits n).reverse

/-! ## Helper lemmas -/

open Coordinate (rangeIncl)

lemma inBoundsZ_west {x y W H : Nat} (hx : x < W) (hy : y < H) :
    inBoundsZ W H ((x : Int) - 1, (y : Int)) ↔ 0 < x := by
  unfold inBoundsZ; simp only []; omega

lemma inBoundsZ_north {x y W H : Nat} (hx : x < W) (hy : y < H) :
    inBoundsZ W H ((x : Int), (y : Int) - 1) ↔ 0 < y := by
  unfold inBoundsZ; simp only []; omega

lemma inBoundsZ_east {x y W H : Nat} (hx : x < W) (hy : y < H) :
    inBoundsZ W H ((x : Int) + 1, (y : Int)) ↔ x < W - 1 := by
  unfold inBoundsZ; simp only []; omega

lemma inBoundsZ_south {x y W H : Nat} (hx : x < W) (hy : y < H) :
    inBoundsZ W H ((x : Int), (y : Int) + 1) ↔ y < H - 1 := by
  unfold inBoundsZ; simp only []; omega

lemma mem_rangeIncl {a b n : Nat} (hab : a ≤ b) :
    n ∈ rangeIncl a b ↔ a ≤ n ∧ n ≤ b := by
  unfold Coordinate.rangeIncl
  simp only [List.mem_map, List.mem_range]
  constructor
  · rintro ⟨i, hi, rfl⟩; omega
  · intro hn; exact ⟨n - a, by omega, by omega⟩

lemma pairwise_rangeIncl (a b : Nat) : (rangeIncl a b).Pairwise (· < ·) := by
  unfold Coordinate.rangeIncl
  exact List.Pairwise.map _ (fun i j hij => by omega) (List.pairwise_lt_range _)

lemma mem_map_vert {c a b : Nat} (hab : a ≤ b) (r : Coordinate) :
    r ∈ (rangeIncl a b).map (fun y => (⟨c, y⟩ : Coordinate)) ↔
      r.x = c ∧ a ≤ r.y ∧ r.y ≤ b := by
  obtain ⟨rx, ry⟩ := r
  dsimp only []
  simp only [List.mem_map, Coordinate.mk.injEq]
  constructor
  · rintro ⟨v, hv, h1, rfl⟩
    have := (mem_rangeIncl hab).mp hv
    exact ⟨h1.symm, this.1, this.2⟩
  · rintro ⟨h1, h2, h3⟩
    exact ⟨ry, (mem_rangeIncl hab).mpr ⟨h2, h3⟩, h1.symm, rfl⟩

lemma mem_map_horiz {c a b : Nat} (hab : a ≤ b) (r : Coordinate) :
    r ∈ (rangeIncl a b).map (fun x => (⟨x, c⟩ : Coordinate)) ↔
      r.y = c ∧ a ≤ r.x ∧ r.x ≤ b := by
  obtain ⟨rx, ry⟩ := r
  dsimp only []
  simp only [List.mem_map, Coordinate.mk.injEq]
  constructor
  · rintro ⟨v, hv, rfl, h1⟩
    have := (mem_rangeIncl hab).mp hv
    exact ⟨h1.symm, this.1, this.2⟩
  · rintro ⟨h1, h2, h3⟩
    exact ⟨rx, (mem_rangeIncl hab).mpr ⟨h2, h3⟩, rfl, h1.symm⟩

lemma pairwise_map_vert (c a b : Nat) :
    ((rangeIncl a b).map (fun y => (⟨c, y⟩ : Coordinate))).Pairwise
      (fun r s => r.y < s.y) :=
  List.Pairwise.map _ (fun _ _ hij => hij) (pairwise_rangeIncl a b)

lemma pairwise_map_horiz (c a b : Nat) :
    ((rangeIncl a b).map (fun x => (⟨x, c⟩ : Coordinate))).Pairwise
      (fun r s => r.x < s.x) :=
  List.Pairwise.map _ (fun _ _ hij => hij) (pairwise_rangeIncl a b)

lemma digitChar_spec : ∀ d, d < 10 → (digitChar d).isDigit = true ∧
    Char.toNat (digitChar d) - Char.toNat '0' = d ∧
    digitChar d ≠ ',' ∧ digitChar d ≠ '+' := by decide

lemma natToRevDigits_ne_nil {n : Nat} (h : n ≠ 0) : natToRevDigits n ≠ [] := by
  match n with
  | 0 => exact absurd rfl h
  | m + 1 => simp [natToRevDigits]

lemma natToRevDigits_mem : ∀ n, ∀ c ∈ natToRevDigits n,
    c.isDigit = true ∧ c ≠ ',' ∧ c ≠ '+' := by
  intro n
  induction n using Nat.strong_induction_on with
  | _ n ih =>
    match n with
    | 0 => intro c hc; simp [natToRevDigits] at hc
    | m + 1 =>
      intro c hc
      simp only [natToRevDigits] at hc
      rcases List.mem_cons.mp hc with rfl | hmem
      · have hd := digitChar_spec ((m + 1) % 10) (Nat.mod_lt _ (by omega))
        exact ⟨hd.1, hd.2.2.1, hd.2.2.2⟩
      · exact ih ((m + 1) / 10) (Nat.div_lt_self (by omega) (by omega)) c hmem

lemma natToRevDigits_foldr : ∀ n,
    (natToRevDigits n).foldr
      (fun c acc => acc * 10 + (Char.toNat c - Char.toNat '0')) 0 = n := by
  intro n
  induction n using Nat.strong_induction_on with
  | _ n ih =>
    match n with
    | 0 => simp [natToRevDigits]
    | m + 1 =>
      simp only [natToRevDigits, List.foldr_cons]
      rw [ih ((m + 1) / 10) (Nat.div_lt_self (by omega) (by omega))]
      rw [(digitChar_spec ((m + 1) % 10) (Nat.mod_lt _ (by omega))).2.1]
      omega

lemma parseUsize_natToChars (n : Nat) : parseUsize (natToChars n) = some n := by
  by_cases h0 : n = 0
  · subst h0; decide
  · unfold natToChars parseUsize
    rw [if_neg h0]
    have hmem : ∀ c ∈ (natToRevDigits n).reverse,
        c.isDigit = true ∧ c ≠ ',' ∧ c ≠ '+' := by
      intro c hc; exact natToRevDigits_mem n c (List.mem_reverse.mp hc)
    have hne : (natToRevDigits n).reverse ≠ [] := by
      simpa using natToRevDigits_ne_nil h0
    have hhead : ¬((natToRevDigits n).reverse.head? = some '+') := by
      cases hL : (natToRevDigits n).reverse with
      | nil => simp
      | cons a as =>
        simp only [List.head?, Option.some.injEq]
        intro hcontra
        exact (hmem a (hL ▸ List.mem_cons_self a as)).2.2 hcontra
    simp only [hhead, if_false, if_neg hhead]
    rw [if_neg (by simpa [List.isEmpty_iff] using hne)]
    rw [if_pos (by rw [List.all_eq_true]; intro c hc; exact (hmem c hc).1)]
    rw [List.foldl_reverse]
    rw [natToRevDigits_foldr n]

lemma splitOnComma_no_comma : ∀ (a : List Char), ',' ∉ a → splitOnComma a = [a] := by
  intro a ha
  induction a with
  | nil => rfl
  | cons c cs ih =>
    have hc : ¬(c = ',') := fun h => ha (by simp [h])
    have ih2 := ih (fun h => ha (List.mem_cons_of_mem c h))
    simp only [splitOnComma, if_neg hc, ih2]

lemma splitOnComma_append (a b : List Char) (ha : ',' ∉ a) :
    splitOnComma (a ++ ',' :: b) = a :: splitOnComma b := by
  induction a with
  | nil => simp [splitOnComma]
  | cons c cs ih =>
    have hc : ¬(c = ',') := fun h => ha (by simp [h])
    have ih2 := ih (fun h => ha (List.mem_cons_of_mem c h))
    simp only [List.cons_append, splitOnComma, List.append_eq, if_neg hc, ih2]

lemma comma_not_mem_natToChars (n : Nat) : ',' ∉ natToChars n := by
  unfold natToChars
  split_ifs with h
  · simp
  · intro hc
    exact (natToRevDigits_mem n ',' (List.mem_reverse.mp hc)).2.1 rfl

lemma from_str_natToChars (x y : Nat) :
    Coordinate.from_str (natToChars x ++ ',' :: natToChars y) = some ⟨x, y⟩ := by
  unfold Coordinate.from_str
  rw [splitOnComma_append _ _ (comma_not_mem_natToChars x),
      splitOnComma_no_comma _ (comma_not_mem_natToChars y)]
  simp [Coordinate.collect_pair, parseUsize_natToChars]

lemma from_str_eq_some_iff (s : List Char) (x y : Nat) :
    Coordinate.from_str s = some ⟨x, y⟩ ↔
      ∃ t1 t2, splitOnComma s = [t1, t2] ∧
        parseUsize t1 = some x ∧ parseUsize t2 = some y := by
  unfold Coordinate.from_str
  constructor
  · intro h
    rcases hs : splitOnComma s with _ | ⟨t1, _ | ⟨t2, _ | ⟨t3, ts⟩⟩⟩ <;> rw [hs] at h
    · simp [Coordinate.collect_pair] at h
    · simp [Coordinate.collect_pair] at h
    · rcases h1 : parseUsize t1 with _ | x1 <;>
        rcases h2 : parseUsize t2 with _ | y1 <;>
          simp only [Coordinate.collect_pair, h1, h2] at h <;> simp at h
      exact ⟨t1, t2, rfl, by rw [h1, h.1], by rw [h2, h.2]⟩
    · simp [Coordinate.collect_pair] at h
  · rintro ⟨t1, t2, hs, h1, h2⟩
    rw [hs]
    simp only [Coordinate.collect_pair, h1, h2]

/-! ## Claim theorems -/

set_option maxHeartbeats 1000000 in
/-- C1: for every in-bounds point of a grid with `maxWidth ≥ 2` and
`maxHeight ≥ 2`, the 8-connected enumeration emits neighbors in the
clockwise sweep order west, northwest, north, northeast, east,
southeast, south, southwest, emitting each orthogonal direction iff it
is in bounds and each diagonal iff both adjacent orthogonal directions
are in bounds (`all_neighbors_spec`), and the sequence length is
between 3 (exactly 3 at a corner) and 8 (exactly 8 at an interior
point). -/
theorem claim_C1_all_neighbors_clockwise_gating (p : Coordinate) (W H : Nat)
    (hW : 2 ≤ W) (hH : 2 ≤ H) (hx : p.x < W) (hy : p.y < H) :
    (p.get_surrounding_coordinates W H).map Coordinate.toZ = all_neighbors_spec p W H ∧
    3 ≤ (p.get_surrounding_coordinates W H).length ∧
    (p.get_surrounding_coordinates W H).length ≤ 8 ∧
    ((p.x = 0 ∨ p.x = W - 1) ∧ (p.y = 0 ∨ p.y = H - 1) →
      (p.get_surrounding_coordinates W H).length = 3) ∧
    (0 < p.x ∧ p.x < W - 1 ∧ 0 < p.y ∧ p.y < H - 1 →
      (p.get_surrounding_coordinates W H).length = 8) := by
  obtain ⟨x, y⟩ := p
  simp only [] at hx hy
  unfold Coordinate.get_surrounding_coordinates all_neighbors_spec
  simp only [inBoundsZ_west hx hy, inBoundsZ_north hx hy,
    inBoundsZ_east hx hy, inBoundsZ_south hx hy, gt_iff_lt]
  by_cases h1 : 0 < x <;> by_cases h2 : 0 < y <;>
    by_cases h3 : x < W - 1 <;> by_cases h4 : y < H - 1 <;>
      simp [h1, h2, h3, h4, Coordinate.toZ] <;> omega

/-- C1 witness: the theorem instantiated at the interior point `(1,1)`
of a 3x3 grid. -/
theorem claim_C1_witness :
    ((Coordinate.mk 1 1).get_surrounding_coordinates 3 3).map Coordinate.toZ =
      all_neighbors_spec ⟨1, 1⟩ 3 3 ∧
    3 ≤ ((Coordinate.mk 1 1).get_surrounding_coordinates 3 3).length ∧
    ((Coordinate.mk 1 1).get_surrounding_coordinates 3 3).length ≤ 8 ∧
    (((Coordinate.mk 1 1).x = 0 ∨ (Coordinate.mk 1 1).x = 3 - 1) ∧
      ((Coordinate.mk 1 1).y = 0 ∨ (Coordinate.mk 1 1).y = 3 - 1) →
      ((Coordinate.mk 1 1).get_surrounding_coordinates 3 3).length = 3) ∧
    (0 < (Coordinate.mk 1 1).x ∧ (Coordinate.mk 1 1).x < 3 - 1 ∧
      0 < (Coordinate.mk 1 1).y ∧ (Coordinate.mk 1 1).y < 3 - 1 →
      ((Coordinate.mk 1 1).get_surrounding_coordinates 3 3).length = 8) :=
  claim_C1_all_neighbors_clockwise_gating ⟨1, 1⟩ 3 3
    (by decide) (by decide) (by decide) (by decide)

/-- C2: for axis-aligned endpoints, `get_points_between_vertices`
returns exactly the lattice points of the inclusive interval along the
varying axis (fixed coordinate shared, varying coordinate ranging over
`min..=max`), strictly ascending in the varying coordinate, and the
singleton `[p]` when the endpoints coincide. -/
theorem claim_C2_points_between_interval (p q : Coordinate)
    (h : p.x = q.x ∨ p.y = q.y) :
    ∃ l, p.get_points_between_vertices q = some l ∧
      (p.x = q.x →
        (∀ r, r ∈ l ↔ r.x = p.x ∧ min p.y q.y ≤ r.y ∧ r.y ≤ max p.y q.y) ∧
        l.Pairwise (fun r s => r.y < s.y)) ∧
      (p.x ≠ q.x →
        (∀ r, r ∈ l ↔ r.y = p.y ∧ min p.x q.x ≤ r.x ∧ r.x ≤ max p.x q.x) ∧
        l.Pairwise (fun r s => r.x < s.x)) ∧
      (p = q → l = [p]) := by
  unfold Coordinate.get_points_between_vertices
  rw [if_pos h]
  refine ⟨_, rfl, ?_, ?_, ?_⟩
  · intro hx
    rw [if_pos hx]
    by_cases hy : p.y < q.y
    · rw [if_pos hy, min_eq_left (by omega : p.y ≤ q.y),
        max_eq_right (by omega : p.y ≤ q.y)]
      exact ⟨mem_map_vert (by omega), pairwise_map_vert _ _ _⟩
    · rw [if_neg hy, min_eq_right (by omega : q.y ≤ p.y),
        max_eq_left (by omega : q.y ≤ p.y)]
      exact ⟨mem_map_vert (by omega), pairwise_map_vert _ _ _⟩
  · intro hx
    rw [if_neg hx]
    by_cases hxx : p.x < q.x
    · rw [if_pos hxx, min_eq_left (by omega : p.x ≤ q.x),
        max_eq_right (by omega : p.x ≤ q.x)]
      exact ⟨mem_map_horiz (by omega), pairwise_map_horiz _ _ _⟩
    · rw [if_neg hxx, min_eq_right (by omega : q.x ≤ p.x),
        max_eq_left (by omega : q.x ≤ p.x)]
      exact ⟨mem_map_horiz (by omega), pairwise_map_horiz _ _ _⟩
  · rintro rfl
    rw [if_pos rfl, if_neg (lt_irrefl p.y)]
    have hr : rangeIncl p.y p.y = [p.y] := by
      unfold Coordinate.rangeIncl
      rw [Nat.sub_self]
      rfl
    rw [hr]
    rfl

/-- C2 witness: the theorem instantiated at the vertical pair
`(2,8)`, `(2,5)` (larger endpoint first). -/
theorem claim_C2_witness :
    ∃ l, (Coordinate.mk 2 8).get_points_between_vertices ⟨2, 5⟩ = some l ∧
      ((Coordinate.mk 2 8).x = (Coordinate.mk 2 5).x →
        (∀ r, r ∈ l ↔ r.x = (Coordinate.mk 2 8).x ∧
          min (Coordinate.mk 2 8).y (Coordinate.mk 2 5).y ≤ r.y ∧
          r.y ≤ max (Coordinate.mk 2 8).y (Coordinate.mk 2 5).y) ∧
        l.Pairwise (fun r s => r.y < s.y)) ∧
      ((Coordinate.mk 2 8).x ≠ (Coordinate.mk 2 5).x →
        (∀ r, r ∈ l ↔ r.y = (Coordinate.mk 2 8).y ∧
          min (Coordinate.mk 2 8).x (Coordinate.mk 2 5).x ≤ r.x ∧
          r.x ≤ max (Coordinate.mk 2 8).x (Coordinate.mk 2 5).x) ∧
        l.Pairwise (fun r s => r.x < s.x)) ∧
      (Coordinate.mk 2 8 = Coordinate.mk 2 5 → l = [Coordinate.mk 2 8]) :=
  claim_C2_points_between_interval ⟨2, 8⟩ ⟨2, 5⟩ (by decide)

set_option maxHeartbeats 1000000 in
/-- C3: for every in-bounds point of a grid with `maxWidth ≥ 2` and
`maxHeight ≥ 2`, the 4-connected enumeration emits, in the order west,
north, east, south, exactly those orthogonal neighbor cells lying
within `[0, maxWidth-1] x [0, maxHeight-1]`
(`orthogonal_neighbors_spec`), with length 2, 3 or 4, and exactly 2 at
a corner. -/
theorem claim_C3_orthogonal_neighbors (p : Coordinate) (W H : Nat)
    (hW : 2 ≤ W) (hH : 2 ≤ H) (hx : p.x < W) (hy : p.y < H) :
    (p.get_surrounding_non_diagonal_coordinates W H).map Coordinate.toZ =
      orthogonal_neighbors_spec p W H ∧
    2 ≤ (p.get_surrounding_non_diagonal_coordinates W H).length ∧
    (p.get_surrounding_non_diagonal_coordinates W H).length ≤ 4 ∧
    ((p.x = 0 ∨ p.x = W - 1) ∧ (p.y = 0 ∨ p.y = H - 1) →
      (p.get_surrounding_non_diagonal_coordinates W H).length = 2) ∧
    (0 < p.x ∧ p.x < W - 1 ∧ 0 < p.y ∧ p.y < H - 1 →
      (p.get_surrounding_non_diagonal_coordinates W H).length = 4) := by
  obtain ⟨x, y⟩ := p
  simp only [] at hx hy
  unfold Coordinate.get_surrounding_non_diagonal_coordinates orthogonal_neighbors_spec
  simp only [List.filter_cons, List.filter_nil, decide_eq_true_eq]
  simp only [inBoundsZ_west hx hy, inBoundsZ_north hx hy,
    inBoundsZ_east hx hy, inBoundsZ_south hx hy, gt_iff_lt]
  by_cases h1 : 0 < x <;> by_cases h2 : 0 < y <;>
    by_cases h3 : x < W - 1 <;> by_cases h4 : y < H - 1 <;>
      simp [h1, h2, h3, h4, Coordinate.toZ] <;> omega

/-- C3 witness: the theorem instantiated at the corner `(0,0)` of a
2x2 grid. -/
theorem claim_C3_witness :
    ((Coordinate.mk 0 0).get_surrounding_non_diagonal_coordinates 2 2).map Coordinate.toZ =
      orthogonal_neighbors_spec ⟨0, 0⟩ 2 2 ∧
    2 ≤ ((Coordinate.mk 0 0).get_surrounding_non_diagonal_coordinates 2 2).length ∧
    ((Coordinate.mk 0 0).get_surrounding_non_diagonal_coordinates 2 2).length ≤ 4 ∧
    (((Coordinate.mk 0 0).x = 0 ∨ (Coordinate.mk 0 0).x = 2 - 1) ∧
      ((Coordinate.mk 0 0).y = 0 ∨ (Coordinate.mk 0 0).y = 2 - 1) →
      ((Coordinate.mk 0 0).get_surrounding_non_diagonal_coordinates 2 2).length = 2) ∧
    (0 < (Coordinate.mk 0 0).x ∧ (Coordinate.mk 0 0).x < 2 - 1 ∧
      0 < (Coordinate.mk 0 0).y ∧ (Coordinate.mk 0 0).y < 2 - 1 →
      ((Coordinate.mk 0 0).get_surrounding_non_diagonal_coordinates 2 2).length = 4) :=
  claim_C3_orthogonal_neighbors ⟨0, 0⟩ 2 2 (by decide) (by decide) (by decide) (by decide)

/-- C4: `is_within_bounds minX maxX minY maxY` is true iff
`minX ≤ x ≤ maxX` and `minY ≤ y ≤ maxY`, both ranges inclusive (the
function is pure by construction). -/
theorem claim_C4_is_within_bounds_iff (p : Coordinate) (min_x max_x min_y max_y : Nat) :
    p.is_within_bounds min_x max_x min_y max_y = true ↔
      min_x ≤ p.x ∧ p.x ≤ max_x ∧ min_y ≤ p.y ∧ p.y ≤ max_y := by
  simp [Coordinate.is_within_bounds, and_assoc]

/-- C5: `from_str` succeeds with `⟨x, y⟩` iff the input splits on
commas into exactly two tokens that parse as non-negative integers
(no whitespace trimming), it fails on everything else, and it parses
the canonical rendering `"x,y"` back to `⟨x, y⟩`; the last conjunct
shows an embedded space making the parse fail. -/
theorem claim_C5_from_str_iff_and_round_trip :
    (∀ (s : List Char) (x y : Nat),
      Coordinate.from_str s = some ⟨x, y⟩ ↔
        ∃ t1 t2, splitOnComma s = [t1, t2] ∧
          parseUsize t1 = some x ∧ parseUsize t2 = some y) ∧
    (∀ x y : Nat,
      Coordinate.from_str (natToChars x ++ ',' :: natToChars y) = some ⟨x, y⟩) ∧
    Coordinate.from_str ['1', ',', ' ', '2'] = none :=
  ⟨from_str_eq_some_iff, from_str_natToChars, by decide⟩

/-- C6: for axis-aligned endpoints `get_points_between_vertices` is
symmetric in its endpoints, and both orders of the concrete pair
`(2,5)`, `(2,8)` yield `[(2,5),(2,6),(2,7),(2,8)]`. -/
theorem claim_C6_points_between_symmetric (p q : Coordinate)
    (h : p.x = q.x ∨ p.y = q.y) :
    p.get_points_between_vertices q = q.get_points_between_vertices p ∧
    (Coordinate.mk 2 5).get_points_between_vertices ⟨2, 8⟩ =
      some [⟨2, 5⟩, ⟨2, 6⟩, ⟨2, 7⟩, ⟨2, 8⟩] ∧
    (Coordinate.mk 2 8).get_points_between_vertices ⟨2, 5⟩ =
      some [⟨2, 5⟩, ⟨2, 6⟩, ⟨2, 7⟩, ⟨2, 8⟩] := by
  refine ⟨?_, by decide, by decide⟩
  obtain ⟨px, py⟩ := p
  obtain ⟨qx, qy⟩ := q
  simp only [] at h
  unfold Coordinate.get_points_between_vertices
  dsimp only []
  rcases Nat.lt_trichotomy px qx with h1 | h1 | h1 <;>
    rcases Nat.lt_trichotomy py qy with h2 | h2 | h2 <;>
      simp_all [Nat.ne_of_lt, Nat.ne_of_gt, Nat.lt_asymm, lt_irrefl]

/-- C6 witness: the theorem instantiated at the horizontal pair
`(7,3)`, `(4,3)`. -/
theorem claim_C6_witness :
    (Coordinate.mk 7 3).get_points_between_vertices ⟨4, 3⟩ =
      (Coordinate.mk 4 3).get_points_between_vertices ⟨7, 3⟩ ∧
    (Coordinate.mk 2 5).get_points_between_vertices ⟨2, 8⟩ =
      some [⟨2, 5⟩, ⟨2, 6⟩, ⟨2, 7⟩, ⟨2, 8⟩] ∧
    (Coordinate.mk 2 8).get_points_between_vertices ⟨2, 5⟩ =
      some [⟨2, 5⟩, ⟨2, 6⟩, ⟨2, 7⟩, ⟨2, 8⟩] :=
  claim_C6_points_between_symmetric ⟨7, 3⟩ ⟨4, 3⟩ (by decide)

/-- C7: `get_points_between_vertices` fails (assertion) exactly when
the endpoints are neither row-aligned nor column-aligned; aligned
input never fails, non-aligned input never returns a result. -/
theorem claim_C7_points_between_assertion_iff (p q : Coordinate) :
    p.get_points_between_vertices q = none ↔ p.x ≠ q.x ∧ p.y ≠ q.y := by
  unfold Coordinate.get_points_between_vertices
  split_ifs with h <;> simp <;> tauto

set_option maxHeartbeats 1000000 in
/-- C8: with `maxWidth ≥ 2` and `maxHeight ≥ 2`, both neighbor
enumerations are total for every point: the variants that check every
subtraction (`x-1`, `y-1`, `maxWidth-1`, `maxHeight-1`) for underflow
return `some` of the plain result, so no panic or underflow is
reachable (the bounds check `is_within_bounds` contains no partial
operation at all). -/
theorem claim_C8_neighbor_enumeration_total (p : Coordinate) (W H : Nat)
    (hW : 2 ≤ W) (hH : 2 ≤ H) :
    p.get_surrounding_non_diagonal_coordinates_checked W H =
      some (p.get_surrounding_non_diagonal_coordinates W H) ∧
    p.get_surrounding_coordinates_checked W H =
      some (p.get_surrounding_coordinates W H) := by
  obtain ⟨x, y⟩ := p
  unfold Coordinate.get_surrounding_non_diagonal_coordinates_checked
    Coordinate.get_surrounding_non_diagonal_coordinates
    Coordinate.get_surrounding_coordinates_checked
    Coordinate.get_surrounding_coordinates
    Coordinate.csub
  by_cases h1 : x = 0 <;> by_cases h2 : y = 0 <;>
    by_cases h3 : x < W - 1 <;> by_cases h4 : y < H - 1 <;>
      first
      | (exfalso; omega)
      | simp [h1, h2, h3, h4, Nat.pos_iff_ne_zero, Nat.one_le_iff_ne_zero,
          show (1:Nat) ≤ W from by omega, show (1:Nat) ≤ H from by omega,
          show (1:Nat) < W from by omega, show (1:Nat) < H from by omega,
          show W - 1 ≠ 0 from by omega, show H - 1 ≠ 0 from by omega]

/-- C8 witness: the theorem instantiated at the point `(5,7)` (out of
bounds of the 2x2 grid, as totality holds for every point). -/
theorem claim_C8_witness :
    (Coordinate.mk 5 7).get_surrounding_non_diagonal_coordinates_checked 2 2 =
      some ((Coordinate.mk 5 7).get_surrounding_non_diagonal_coordinates 2 2) ∧
    (Coordinate.mk 5 7).get_surrounding_coordinates_checked 2 2 =
      some ((Coordinate.mk 5 7).get_surrounding_coordinates 2 2) :=
  claim_C8_neighbor_enumeration_total ⟨5, 7⟩ 2 2 (by decide) (by decide)

/-- C9 counterexample: the 8-connected neighbors of the corner `(0,0)`
in a 5x5 grid are NOT the sequence `[(1,0),(0,1),(1,1)]` claimed by
the spec (the set is right but the order is not). -/
theorem claim_C9_counterexample_corner_order :
    (Coordinate.mk 0 0).get_surrounding_coordinates 5 5 ≠
      [⟨1, 0⟩, ⟨0, 1⟩, ⟨1, 1⟩] := by decide

/-- C9 (amended): the 8-connected neighbors of the corner `(0,0)` in a
5x5 grid are exactly the 3 points east, southeast, south, in the
clockwise emission order `[(1,0),(1,1),(0,1)]` (southeast is emitted
inside the east block, before south). -/
theorem claim_C9_corner_neighbors :
    (Coordinate.mk 0 0).get_surrounding_coordinates 5 5 =
      [⟨1, 0⟩, ⟨1, 1⟩, ⟨0, 1⟩] := by decide

set_option maxHeartbeats 1000000 in
/-- C10: for every in-bounds point of a grid with `maxWidth ≥ 2` and
`maxHeight ≥ 2`, both neighbor enumerations return pairwise-distinct
points, all within `[0, maxWidth-1] x [0, maxHeight-1]`, none equal to
the point itself. -/
theorem claim_C10_neighbor_invariants (p : Coordinate) (W H : Nat)
    (hW : 2 ≤ W) (hH : 2 ≤ H) (hx : p.x < W) (hy : p.y < H) :
    ((p.get_surrounding_non_diagonal_coordinates W H).Nodup ∧
      (∀ q ∈ p.get_surrounding_non_diagonal_coordinates W H,
        q.x ≤ W - 1 ∧ q.y ≤ H - 1) ∧
      p ∉ p.get_surrounding_non_diagonal_coordinates W H) ∧
    ((p.get_surrounding_coordinates W H).Nodup ∧
      (∀ q ∈ p.get_surrounding_coordinates W H, q.x ≤ W - 1 ∧ q.y ≤ H - 1) ∧
      p ∉ p.get_surrounding_coordinates W H) := by
  obtain ⟨x, y⟩ := p
  simp only [] at hx hy
  unfold Coordinate.get_surrounding_non_diagonal_coordinates
    Coordinate.get_surrounding_coordinates
  by_cases h1 : 0 < x <;> by_cases h2 : 0 < y <;>
    by_cases h3 : x < W - 1 <;> by_cases h4 : y < H - 1 <;>
      simp [h1, h2, h3, h4, Coordinate.mk.injEq] <;> omega

/-- C10 witness: the theorem instantiated at the edge point `(0,1)` of
a 3x2 grid. -/
theorem claim_C10_witness :
    (((Coordinate.mk 0 1).get_surrounding_non_diagonal_coordinates 3 2).Nodup ∧
      (∀ q ∈ (Coordinate.mk 0 1).get_surrounding_non_diagonal_coordinates 3 2,
        q.x ≤ 3 - 1 ∧ q.y ≤ 2 - 1) ∧
      Coordinate.mk 0 1 ∉ (Coordinate.mk 0 1).get_surrounding_non_diagonal_coordinates 3 2) ∧
    (((Coordinate.mk 0 1).get_surrounding_coordinates 3 2).Nodup ∧
      (∀ q ∈ (Coordinate.mk 0 1).get_surrounding_coordinates 3 2,
        q.x ≤ 3 - 1 ∧ q.y ≤ 2 - 1) ∧
      Coordinate.mk 0 1 ∉ (Coordinate.mk 0 1).get_surrounding_coordinates 3 2) :=
  claim_C10_neighbor_invariants ⟨0, 1⟩ 3 2 (by decide) (by decide) (by decide) (by decide)
